import Mathlib

/-!
Verification of the ts7200 peripheral-emulation core: a shallow embedding
of the two devices (`src/devices/timer.rs` and `src/devices/vic/mod.rs`)
and proofs about their register-level behaviour.

Conventions of the embedding:
- machine integers (`u32`, `u64`) are `Nat` with explicit `% 2 ^ 32` /
  `% 2 ^ 64` wherever the Rust code can overflow or truncate; wrapping
  subtraction `a.wrapping_sub b` on `u32` becomes
  `(a + (2 ^ 32 - b)) % 2 ^ 32`;
- a Rust `panic!` (which aborts the simulation) is modelled by `Option`:
  `none` is the aborted run;
- the wall clock (`Instant`) is replaced by an explicit elapsed-time
  parameter `dt` in nanoseconds handed to each register access, exactly
  the quantity `now.duration_since(self.last_time)` the code computes;
- diagnostic-only data (device labels, `mem_ctx` context wrapping) is
  dropped: it never influences register values or state.
-/

namespace TS7200

/-- Modelled from the spec: the error half of `MemResult` lives in the
`memory` module which is not part of the two device sources. Section 7 of
the spec distinguishes invalid access, unexpected address, and
stub/unimplemented behaviour; the Vic source also names the variants
`InvalidAccess`, `Unexpected`, `StubRead v` and `StubWrite` directly. The
timer's `mem_unimpl!` macro is the unimplemented-register report and
`mem_ctx` only attaches diagnostic context, so it is the identity here. -/
inductive MemException where
  | InvalidAccess : MemException
  | Unexpected : MemException
  | StubRead : Nat → MemException
  | StubWrite : MemException
  | Unimpl : MemException
deriving Repr, DecidableEq

/-- Result of a register access that did not abort: `Except` mirrors
Rust's `MemResult<T> = Result<T, MemException>`. -/
abbrev MemResult (α : Type) := Except MemException α

instance {α : Type} [DecidableEq α] : DecidableEq (MemResult α) := fun x y =>
  match x, y with
  | .ok a, .ok b => if h : a = b then .isTrue (by simp [h]) else .isFalse (by simp [h])
  | .ok _, .error _ => .isFalse (by simp)
  | .error _, .ok _ => .isFalse (by simp)
  | .error e, .error f => if h : e = f then .isTrue (by simp [h]) else .isFalse (by simp [h])

/-! ## Timer (`src/devices/timer.rs`) -/

/-- Rust `enum Mode { FreeRunning = 0, Periodic = 1 }`. -/
inductive Mode where
  | FreeRunning : Mode
  | Periodic : Mode
deriving Repr, DecidableEq

/-- Rust `enum Clock { Khz2 = 0, Khz508 = 1 }`. -/
inductive Clock where
  | Khz2 : Clock
  | Khz508 : Clock
deriving Repr, DecidableEq

/-- Discriminant of `Mode` as used by `(self.mode as u32)`. -/
def Mode.toBits : Mode → Nat
  | .FreeRunning => 0
  | .Periodic => 1

/-- Discriminant of `Clock` as used by `(self.clksel as u32)`. -/
def Clock.toBits : Clock → Nat
  | .Khz2 => 0
  | .Khz508 => 1

/-- The `Timer` struct. `label` (diagnostics only) and `last_time` (replaced
by the explicit `dt` parameter) are not carried. -/
structure Timer where
  loadval : Option Nat
  val : Nat
  enabled : Bool
  mode : Mode
  clksel : Clock
  wrapmask : Nat
  microticks : Nat
deriving Repr, DecidableEq

namespace Timer

/-- `Timer::new`: `wrapmask = ((1u64 << bits) - 1) as u32`. -/
def new (bits : Nat) : Timer where
  loadval := none
  val := 0
  enabled := false
  mode := .FreeRunning
  clksel := .Khz2
  wrapmask := (2 ^ bits - 1) % 2 ^ 32
  microticks := 0

/-- The tick rate selected by `clksel`, in ticks per millisecond. -/
def khz (t : Timer) : Nat :=
  match t.clksel with
  | .Khz2 => 2
  | .Khz508 => 508

/-- The `match self.mode` block at the end of `Timer::update_regs`, split
out with the already computed whole-tick count. `none` is the panic on an
unset load value in the periodic wrap branch. The subtraction
`loadval - remaining_ticks` is a plain `u32` subtraction in the code; its
release-mode wrap is `(loadval + (2 ^ 32 - remaining)) % 2 ^ 32`. -/
def applyTicks (t1 : Timer) (ticks : Nat) : Option Timer :=
  match t1.mode with
  | .FreeRunning =>
      some { t1 with val := (t1.val + (2 ^ 32 - ticks)) % 2 ^ 32 &&& t1.wrapmask }
  | .Periodic =>
      if ticks ≤ t1.val then
        some { t1 with val := t1.val - ticks }
      else
        match t1.loadval with
        | none => none
        | some lv =>
            some { t1 with val := (lv + (2 ^ 32 - (ticks - t1.val))) % 2 ^ 32 }

/-- `Timer::update_regs`, the lazy update run before every register
access. `dt` is the elapsed wall-clock time in nanoseconds (a `u64` in the
code, hence the `% 2 ^ 64`). -/
def update_regs (t : Timer) (dt : Nat) : Option Timer :=
  if t.enabled = false then
    some t
  else
    applyTicks
      { t with microticks := (dt % 2 ^ 64 * t.khz + t.microticks) % 2 ^ 64 % 1000000 }
      ((dt % 2 ^ 64 * t.khz + t.microticks) % 2 ^ 64 / 1000000 % 2 ^ 32)

/-- `<Timer as Memory>::r32`. Returns `none` for the panic on reading an
unset Load register; otherwise the result and the post-access state. -/
def r32 (t : Timer) (dt : Nat) (off : Nat) : Option (MemResult Nat × Timer) :=
  match t.update_regs dt with
  | none => none
  | some t1 =>
    if off = 0x00 then
      match t1.loadval with
      | some v => some (.ok v, t1)
      | none => none
    else if off = 0x04 then
      some (.ok t1.val, t1)
    else if off = 0x08 then
      some (.ok (t1.clksel.toBits <<< 3 ||| t1.mode.toBits <<< 6 |||
        (if t1.enabled then 1 else 0) <<< 7), t1)
    else if off = 0x0C then
      some (.error .Unimpl, t1)
    else
      some (.error .Unexpected, t1)

/-- The Control-register (offset 0x08) branch of `Timer::w32`: decode
clock select (bit 3), mode (bit 6) and enabled (bit 7); a
disabled→enabled transition zeroes the microtick accumulator; a write
that leaves the timer disabled clears the load value. -/
def writeControl (t1 : Timer) (v : Nat) : Timer :=
  let clk : Clock := if v &&& 1 <<< 3 != 0 then .Khz508 else .Khz2
  let md : Mode := if v &&& 1 <<< 6 != 0 then .Periodic else .FreeRunning
  let prev := t1.enabled
  let en : Bool := v &&& 1 <<< 7 != 0
  let t2 : Timer := { t1 with clksel := clk, mode := md, enabled := en }
  let t3 : Timer := if en && !prev then { t2 with microticks := 0 } else t2
  if !en then { t3 with loadval := none } else t3

/-- `<Timer as Memory>::w32`. `none` covers the two panics: writing Load
while enabled, and writing the read-only Value register. -/
def w32 (t : Timer) (dt : Nat) (off : Nat) (v : Nat) : Option (MemResult Unit × Timer) :=
  match t.update_regs dt with
  | none => none
  | some t1 =>
    if off = 0x00 then
      if t1.enabled then
        none
      else
        let v' := v &&& t1.wrapmask
        some (.ok (), { t1 with loadval := some v', val := v' })
    else if off = 0x04 then
      none
    else if off = 0x08 then
      some (.ok (), t1.writeControl v)
    else if off = 0x0C then
      some (.error .Unimpl, t1)
    else
      some (.error .Unexpected, t1)

end Timer

/-- One externally driven timer access: a register read or write. -/
inductive TimerOp where
  | read : Nat → TimerOp
  | write : Nat → Nat → TimerOp
deriving Repr, DecidableEq

/-- Run one access against the timer after `dt` nanoseconds have elapsed,
keeping only the state (recoverable errors leave the updated state;
a panic aborts). -/
def timerStep (t : Timer) (dt : Nat) (op : TimerOp) : Option Timer :=
  match op with
  | .read off => (t.r32 dt off).map Prod.snd
  | .write off v => (t.w32 dt off v).map Prod.snd

/-- Run a whole access sequence; each element gives the elapsed time
before the access and the access itself. -/
def timerRun (t : Timer) : List (Nat × TimerOp) → Option Timer
  | [] => some t
  | (dt, op) :: rest =>
    match timerStep t dt op with
    | none => none
    | some t' => timerRun t' rest

/-! ## Interrupt controller (`src/devices/vic/mod.rs`) -/

/-- Bitwise complement `!x` on a `u32` value. -/
def not32 (x : Nat) : Nat := x ^^^ 0xFFFFFFFF

/-- One slot of the vector table (`struct VectorEntry`). -/
structure VectorEntry where
  source : Nat
  isr_addr : Nat
  enabled : Bool
deriving Repr, DecidableEq

/-- `Default` for `VectorEntry`: all fields zeroed. -/
def VectorEntry.default : VectorEntry where
  source := 0
  isr_addr := 0
  enabled := false

/-- The `Vic` struct (label dropped: diagnostics only). The 16-slot array
`[VectorEntry; 16]` is a list; `Vic.new` builds it with length 16 and all
register writes preserve the length. -/
structure Vic where
  status : Nat
  enabled : Nat
  select : Nat
  software_status : Nat
  default_isr : Nat
  vector_entries : List VectorEntry
deriving Repr, DecidableEq

namespace Vic

/-- `Vic::new`: everything zeroed, 16 default vector entries. -/
def new : Vic where
  status := 0
  enabled := 0
  select := 0
  software_status := 0
  default_isr := 0
  vector_entries := List.replicate 16 VectorEntry.default

/-- `Vic::rawstatus`. -/
def rawstatus (v : Vic) : Nat := v.software_status ||| v.status

/-- `Vic::enabled_active_interrupts`. -/
def enabled_active_interrupts (v : Vic) : Nat := v.rawstatus &&& v.enabled

/-- `Vic::irq`. -/
def irq (v : Vic) : Bool := v.enabled_active_interrupts &&& not32 v.select != 0

/-- `Vic::fiq`. -/
def fiq (v : Vic) : Bool := v.enabled_active_interrupts &&& v.select != 0

/-- `Vic::isr_address`: default vector on FIQ-or-no-IRQ, else the
`find_map` scan of the vector table in slot order. -/
def isr_address (v : Vic) : Nat :=
  if v.fiq || !v.irq then
    v.default_isr
  else
    let irqs := v.enabled_active_interrupts &&& not32 v.select
    match v.vector_entries.findSome? (fun entry =>
        if entry.enabled && (irqs &&& 1 <<< entry.source != 0) then
          some entry.isr_addr
        else
          none) with
    | some addr => addr
    | none => v.default_isr

/-- `Vic::assert_interrupt`. -/
def assert_interrupt (v : Vic) (source : Nat) : Vic :=
  { v with status := v.status ||| 1 <<< source }

/-- `Vic::clear_interrupt`. -/
def clear_interrupt (v : Vic) (source : Nat) : Vic :=
  { v with status := v.status &&& not32 (1 <<< source) }

/-- `<Vic as Memory>::r32`. No arm of the Rust match mutates the
controller, so the returned state is the input state in every branch;
the `&mut self` receiver is threaded explicitly as the second component. -/
def r32 (v : Vic) (off : Nat) : MemResult Nat × Vic :=
  if off = 0x00 then (.ok (v.enabled_active_interrupts &&& not32 v.select), v)
  else if off = 0x04 then (.ok (v.enabled_active_interrupts &&& v.select), v)
  else if off = 0x08 then (.ok v.rawstatus, v)
  else if off = 0x0c then (.ok v.select, v)
  else if off = 0x10 then (.ok v.enabled, v)
  else if off = 0x14 then (.error .InvalidAccess, v)
  else if off = 0x18 then (.ok v.software_status, v)
  else if off = 0x1c then (.error .InvalidAccess, v)
  else if off = 0x20 then (.error (.StubRead 0), v)
  else if off = 0x30 then (.ok v.isr_address, v)
  else if off = 0x34 then (.ok v.default_isr, v)
  else if 0x100 ≤ off ∧ off ≤ 0x13c then
    let index := (off - 0x100) / 4
    (.ok (v.vector_entries.getD index VectorEntry.default).isr_addr, v)
  else if 0x200 ≤ off ∧ off ≤ 0x23c then
    let index := (off - 0x200) / 4
    let entry := v.vector_entries.getD index VectorEntry.default
    (.ok ((if entry.enabled then 0x20 else 0) + entry.source), v)
  else if off = 0xfe0 then (.ok 0x90, v)
  else if off = 0xfe4 then (.ok 0x11, v)
  else if off = 0xfe8 then (.ok 0x04, v)
  else if off = 0xfec then (.ok 0x00, v)
  else (.error .Unexpected, v)

/-- `<Vic as Memory>::w32`. -/
def w32 (v : Vic) (off : Nat) (val : Nat) : MemResult Unit × Vic :=
  if off = 0x00 then (.error .InvalidAccess, v)
  else if off = 0x04 then (.error .InvalidAccess, v)
  else if off = 0x08 then (.error .InvalidAccess, v)
  else if off = 0x0c then (.ok (), { v with select := val })
  else if off = 0x10 then (.ok (), { v with enabled := val })
  else if off = 0x14 then (.ok (), { v with enabled := v.enabled &&& not32 val })
  else if off = 0x18 then (.ok (), { v with software_status := v.software_status ||| val })
  else if off = 0x1c then (.ok (), { v with software_status := v.software_status &&& not32 val })
  else if off = 0x20 then (.error .StubWrite, v)
  else if off = 0x30 then (.ok (), v)
  else if off = 0x34 then (.ok (), { v with default_isr := val })
  else if 0x100 ≤ off ∧ off ≤ 0x13c then
    let index := (off - 0x100) / 4
    let entry := v.vector_entries.getD index VectorEntry.default
    let entry' : VectorEntry := { entry with isr_addr := val }
    (.ok (), { v with vector_entries := v.vector_entries.set index entry' })
  else if 0x200 ≤ off ∧ off ≤ 0x23c then
    let index := (off - 0x200) / 4
    let entry := v.vector_entries.getD index VectorEntry.default
    let entry' : VectorEntry :=
      { entry with enabled := val &&& 0x20 != 0, source := val &&& 0x1f }
    (.ok (), { v with vector_entries := v.vector_entries.set index entry' })
  else if off = 0xfe0 then (.error .InvalidAccess, v)
  else if off = 0xfe4 then (.error .InvalidAccess, v)
  else if off = 0xfe8 then (.error .InvalidAccess, v)
  else if off = 0xfec then (.error .InvalidAccess, v)
  else (.error .Unexpected, v)

end Vic

/-- One slot of the spec-side scan: a slot yields its ISR address when it
is enabled and its configured source bit lies in the given set of
pending lines. -/
def slotHit (irqs : Nat) (e : VectorEntry) : Option Nat :=
  if e.enabled && irqs.testBit e.source then some e.isr_addr else none

/-- Vector resolution as the specification words it, for comparison with
`Vic.isr_address`: if an FIQ is pending, or no IRQ is pending, the default
vector address; otherwise scan the 16 vector-table slots by ascending
index (slot 0 highest priority) for the first enabled slot whose
configured source bit lies in the set of enabled, active, non-FIQ-selected
lines, falling back to the default vector address when no slot matches. -/
def isrAddressSpec (v : Vic) : Nat :=
  if v.fiq || !v.irq then
    v.default_isr
  else
    let irqs := (v.status ||| v.software_status) &&& v.enabled &&& not32 v.select
    match (List.range 16).findSome?
        (fun i => slotHit irqs (v.vector_entries.getD i VectorEntry.default)) with
    | some addr => addr
    | none => v.default_isr

/-! ## Helper lemmas -/

theorem Timer.applyTicks_loadval (t1 : Timer) (ticks : Nat) (t' : Timer)
    (h : t1.applyTicks ticks = some t') : t'.loadval = t1.loadval := by
  unfold Timer.applyTicks at h
  split at h
  · cases h
    rfl
  · split at h
    · cases h
      rfl
    · split at h
      · cases h
      · cases h
        rfl

theorem Timer.update_regs_loadval (t : Timer) (dt : Nat) (t' : Timer)
    (h : t.update_regs dt = some t') : t'.loadval = t.loadval := by
  unfold Timer.update_regs at h
  split at h
  · cases h
    rfl
  · have h2 := Timer.applyTicks_loadval _ _ _ h
    exact h2

theorem Timer.writeControl_loadval (t1 : Timer) (v : Nat) :
    (t1.writeControl v).loadval = if v &&& 1 <<< 7 ≠ 0 then t1.loadval else none := by
  by_cases hv : v &&& 128 = 0
  · simp [Timer.writeControl, hv]
  · simp [Timer.writeControl, hv, apply_ite Timer.loadval]

/-! ## Claims -/

/-- C2: for every assignment of the controller's hardware status,
software status, enabled mask, and select mask, `irq()` returns true iff
`((hardware OR software) AND enabled AND NOT select)` is nonzero, and
`fiq()` returns true iff `((hardware OR software) AND enabled AND select)`
is nonzero. -/
theorem C2_controller_routing (hw sw en sel d : Nat) (es : List VectorEntry) :
    (Vic.irq ⟨hw, en, sel, sw, d, es⟩ = true ↔ (hw ||| sw) &&& en &&& not32 sel ≠ 0) ∧
    (Vic.fiq ⟨hw, en, sel, sw, d, es⟩ = true ↔ (hw ||| sw) &&& en &&& sel ≠ 0) := by
  constructor <;>
    simp [Vic.irq, Vic.fiq, Vic.enabled_active_interrupts, Vic.rawstatus, Nat.lor_comm]

/-- C10: every read on the interrupt controller, at every offset
including the vector-address register 0x30, leaves the controller's
entire state unchanged. -/
theorem C10_controller_reads_pure (v : Vic) (off : Nat) : (v.r32 off).2 = v := by
  simp only [Vic.r32, apply_ite Prod.snd, ite_self]

/-- C6 evidence: writing the timer's read-only Value register (offset
0x04) aborts the simulation (`none`, the embedded `panic!`) instead of
returning the recoverable access-violation the claim demands, while the
controller's read-only registers do return the recoverable
`InvalidAccess` result. -/
theorem C6_timer_value_write_panics :
    (Timer.new 16).w32 0 0x04 0 = none ∧
    (Timer.new 32).w32 0 0x04 0 = none ∧
    (Vic.new.w32 0x00 0).1 = .error .InvalidAccess ∧
    (Vic.new.w32 0x04 0).1 = .error .InvalidAccess ∧
    (Vic.new.w32 0x08 0).1 = .error .InvalidAccess ∧
    (Vic.new.w32 0xfe0 0).1 = .error .InvalidAccess ∧
    (Vic.new.w32 0xfe4 0).1 = .error .InvalidAccess ∧
    (Vic.new.w32 0xfe8 0).1 = .error .InvalidAccess ∧
    (Vic.new.w32 0xfec 0).1 = .error .InvalidAccess := by
  refine ⟨rfl, rfl, rfl, rfl, rfl, rfl, rfl, rfl, rfl⟩

/-- C5 evidence: a 16-bit timer in periodic mode, loaded with 5 and then
left alone long enough for 11 ticks, reads back a Value of 4294967295,
far above its wrap mask 65535 — the wrap invariant fails on this
operation sequence. -/
theorem C5_wrap_invariant_violated :
    (timerRun (Timer.new 16)
        [(0, .write 0x00 5), (0, .write 0x08 192), (5500000, .read 0x04)]).map
      (fun t => decide (t.val ≤ t.wrapmask)) = some false := by
  decide

/-- C7 counterexample: a Load write of 5 while disabled stores the load
value, but a following Control write with enable bit 0 — a
disabled→disabled transition — clears it, where the claim says it must
stay readable. -/
theorem C7_counterexample :
    (timerRun (Timer.new 16) [(0, .write 0x00 5)]).map Timer.loadval = some (some 5) ∧
    (timerRun (Timer.new 16) [(0, .write 0x00 5), (0, .write 0x08 0)]).map Timer.loadval
      = some none :=
  ⟨rfl, rfl⟩

/-- C7 amended: a Control-register write clears the timer's load value
exactly when the written enable bit (bit 7) is 0, regardless of the
previous enabled state; a write with enable bit 1 leaves the load value
unchanged. -/
theorem C7_amended_control_write (t : Timer) (dt v : Nat) (r : MemResult Unit × Timer)
    (h : t.w32 dt 0x08 v = some r) :
    r.2.loadval = if v &&& 1 <<< 7 ≠ 0 then t.loadval else none := by
  cases hu : t.update_regs dt with
  | none =>
    rw [Timer.w32, hu] at h
    simp at h
  | some t1 =>
    have hl := Timer.update_regs_loadval t dt t1 hu
    rw [Timer.w32, hu] at h
    norm_num at h
    rw [← h]
    rw [Timer.writeControl_loadval, hl]

/-- Witness for the amended C7 theorem at a concrete input: a disabled
timer holding load value 5 loses it on a Control write of 0. -/
theorem C7_amended_witness :
    ((Except.ok (), Timer.mk none 5 false Mode.FreeRunning Clock.Khz2 65535 0) :
        MemResult Unit × Timer).2.loadval
      = if (0 : Nat) &&& 1 <<< 7 ≠ 0
        then (Timer.mk (some 5) 5 false Mode.FreeRunning Clock.Khz2 65535 0).loadval
        else none :=
  C7_amended_control_write (Timer.mk (some 5) 5 false Mode.FreeRunning Clock.Khz2 65535 0)
    0 0 _ rfl

/-- C8: writing N (at most the wrap mask) to the Load register of a
disabled timer stores N as both the load value and the current value, so
that immediately afterwards reading Load (offset 0x00) and reading Value
(offset 0x04) both return N. -/
theorem C8_load_write_couples_value (t : Timer) (dt dt1 dt2 n bits : Nat)
    (hen : t.enabled = false) (hw : t.wrapmask = 2 ^ bits - 1)
    (hn : n ≤ t.wrapmask) :
    ∃ t', t.w32 dt 0x00 n = some (.ok (), t') ∧
      t'.loadval = some n ∧ t'.val = n ∧
      t'.r32 dt1 0x00 = some (.ok n, t') ∧
      t'.r32 dt2 0x04 = some (.ok n, t') := by
  have hpow : 0 < 2 ^ bits := Nat.pos_pow_of_pos bits (by norm_num)
  have hn' : n &&& t.wrapmask = n := by
    rw [hw, Nat.and_pow_two_sub_one_eq_mod]
    rw [hw] at hn
    exact Nat.mod_eq_of_lt (by omega)
  have hup : t.update_regs dt = some t := by
    unfold Timer.update_regs
    rw [if_pos hen]
  refine ⟨{ t with loadval := some n, val := n }, ?_, rfl, rfl, ?_, ?_⟩
  · rw [Timer.w32, hup]
    simp [hen, hn']
  · have hup1 : Timer.update_regs { t with loadval := some n, val := n } dt1 =
        some { t with loadval := some n, val := n } := by
      unfold Timer.update_regs
      rw [if_pos hen]
    rw [Timer.r32, hup1]
    simp
  · have hup2 : Timer.update_regs { t with loadval := some n, val := n } dt2 =
        some { t with loadval := some n, val := n } := by
      unfold Timer.update_regs
      rw [if_pos hen]
    rw [Timer.r32, hup2]
    simp

/-- Witness for C8 at a concrete input: a fresh 16-bit timer accepts a
Load write of 5 and reads 5 back from both Load and Value. -/
theorem C8_witness :
    ∃ t', (Timer.new 16).w32 0 0x00 5 = some (.ok (), t') ∧
      t'.loadval = some 5 ∧ t'.val = 5 ∧
      t'.r32 0 0x00 = some (.ok 5, t') ∧
      t'.r32 0 0x04 = some (.ok 5, t') :=
  C8_load_write_couples_value (Timer.new 16) 0 0 0 5 16 rfl rfl (by decide)

theorem Timer.khz_pos (t : Timer) : 0 < t.khz := by
  unfold Timer.khz
  cases t.clksel <;> norm_num

theorem Timer.update_regs_enabled_eq (t : Timer) (dt : Nat)
    (hen : t.enabled = true)
    (hof : dt * t.khz + t.microticks < 2 ^ 64) :
    t.update_regs dt =
      Timer.applyTicks
        { t with microticks := (dt * t.khz + t.microticks) % 1000000 }
        ((dt * t.khz + t.microticks) / 1000000 % 2 ^ 32) := by
  have hdt : dt < 2 ^ 64 := by
    have h1 : dt ≤ dt * t.khz := Nat.le_mul_of_pos_right dt t.khz_pos
    omega
  have e1 : (dt % 2 ^ 64 * t.khz + t.microticks) % 2 ^ 64 =
      dt * t.khz + t.microticks := by
    rw [Nat.mod_eq_of_lt hdt]
    exact Nat.mod_eq_of_lt hof
  unfold Timer.update_regs
  rw [if_neg (by simp [hen])]
  rw [e1]

/-- C3: a lazy update of an enabled free-running timer over dt elapsed
nanoseconds with carried fraction f computes microticks = dt × clock_khz
+ f, decrements the value by the whole-tick count
microticks / 1,000,000 modulo 2^bits, and stores microticks mod 1,000,000
as the new carried fraction. The overflow bound keeps the 64-bit
microtick product exact, as the claim's arithmetic assumes. -/
theorem C3_free_running_update (t : Timer) (dt bits : Nat)
    (hen : t.enabled = true) (hm : t.mode = Mode.FreeRunning)
    (hw : t.wrapmask = 2 ^ bits - 1) (hb : bits = 16 ∨ bits = 32)
    (hof : dt * t.khz + t.microticks < 2 ^ 64) :
    ∃ t', t.update_regs dt = some t' ∧
      t'.microticks = (dt * t.khz + t.microticks) % 1000000 ∧
      t'.val = (t.val + (2 ^ bits - (dt * t.khz + t.microticks) / 1000000 % 2 ^ bits))
        % 2 ^ bits := by
  rw [Timer.update_regs_enabled_eq t dt hen hof]
  unfold Timer.applyTicks
  simp only [hm]
  refine ⟨_, rfl, rfl, ?_⟩
  show (t.val + (2 ^ 32 - (dt * t.khz + t.microticks) / 1000000 % 2 ^ 32)) % 2 ^ 32
      &&& t.wrapmask
    = (t.val + (2 ^ bits - (dt * t.khz + t.microticks) / 1000000 % 2 ^ bits)) % 2 ^ bits
  rw [hw, Nat.and_pow_two_sub_one_eq_mod]
  rcases hb with hb | hb <;> subst hb <;> omega

/-- Witness for C3 at a concrete input: a 32-bit free-running timer at
2 kHz with value 1000 and no carried fraction, after 5.5 ms (11 ticks),
holds value 989 and carried fraction 0. -/
theorem C3_witness :
    ∃ t', Timer.update_regs
        (Timer.mk (some 1000) 1000 true Mode.FreeRunning Clock.Khz2 (2 ^ 32 - 1) 0)
        5500000 = some t' ∧
      t'.microticks = (5500000 * (Timer.mk (some 1000) 1000 true Mode.FreeRunning
        Clock.Khz2 (2 ^ 32 - 1) 0).khz + 0) % 1000000 ∧
      t'.val = (1000 + (2 ^ 32 - (5500000 * (Timer.mk (some 1000) 1000 true
        Mode.FreeRunning Clock.Khz2 (2 ^ 32 - 1) 0).khz + 0) / 1000000 % 2 ^ 32))
        % 2 ^ 32 :=
  C3_free_running_update
    (Timer.mk (some 1000) 1000 true Mode.FreeRunning Clock.Khz2 (2 ^ 32 - 1) 0)
    5500000 32 rfl rfl rfl (Or.inr rfl) (by decide)

/-- C4: a lazy update of an enabled periodic timer that computes T whole
ticks leaves value − T when the old value is at least T; when the old
value is less than T it reloads value = load − (T − old value), and it is
a fatal configuration error (an aborted run) for the load value to be
absent in that case. The bounds keep the 64-bit microtick product and the
32-bit tick cast exact, and `L < 2 ^ 32` with `T − old ≤ L` keeps the
reload subtraction inside `u32` range, which is all the claim speaks to. -/
theorem C4_periodic_update (t : Timer) (dt : Nat)
    (hen : t.enabled = true) (hm : t.mode = Mode.Periodic)
    (hof : dt * t.khz + t.microticks < 2 ^ 64)
    (hT : (dt * t.khz + t.microticks) / 1000000 < 2 ^ 32) :
    ((dt * t.khz + t.microticks) / 1000000 ≤ t.val →
      ∃ t', t.update_regs dt = some t' ∧
        t'.val = t.val - (dt * t.khz + t.microticks) / 1000000) ∧
    (t.val < (dt * t.khz + t.microticks) / 1000000 → t.loadval = none →
      t.update_regs dt = none) ∧
    (∀ L, t.val < (dt * t.khz + t.microticks) / 1000000 → t.loadval = some L →
      L < 2 ^ 32 → (dt * t.khz + t.microticks) / 1000000 - t.val ≤ L →
      ∃ t', t.update_regs dt = some t' ∧
        t'.val = L - ((dt * t.khz + t.microticks) / 1000000 - t.val)) := by
  rw [Timer.update_regs_enabled_eq t dt hen hof]
  unfold Timer.applyTicks
  simp only [hm]
  rw [Nat.mod_eq_of_lt hT]
  refine ⟨?_, ?_, ?_⟩
  · intro hle
    rw [if_pos hle]
    exact ⟨_, rfl, rfl⟩
  · intro hlt hnone
    rw [if_neg (by omega), hnone]
  · intro L hlt hsome hL hrem
    rw [if_neg (by omega), hsome]
    refine ⟨_, rfl, ?_⟩
    show (L + (2 ^ 32 - ((dt * t.khz + t.microticks) / 1000000 - t.val))) % 2 ^ 32 = _
    omega

/-- Witness for C4 at a concrete input: a periodic 2 kHz timer with value
5, load value 100 and no carried fraction, after 5.5 ms (11 ticks),
reloads to 100 − (11 − 5) = 94. -/
theorem C4_witness :
    ((5500000 * (Timer.mk (some 100) 5 true Mode.Periodic Clock.Khz2 (2 ^ 32 - 1) 0).khz
        + 0) / 1000000 ≤ 5 →
      ∃ t', Timer.update_regs
          (Timer.mk (some 100) 5 true Mode.Periodic Clock.Khz2 (2 ^ 32 - 1) 0)
          5500000 = some t' ∧
        t'.val = 5 - (5500000 * (Timer.mk (some 100) 5 true Mode.Periodic Clock.Khz2
          (2 ^ 32 - 1) 0).khz + 0) / 1000000) ∧
    (5 < (5500000 * (Timer.mk (some 100) 5 true Mode.Periodic Clock.Khz2
        (2 ^ 32 - 1) 0).khz + 0) / 1000000 → (some 100 : Option Nat) = none →
      Timer.update_regs
        (Timer.mk (some 100) 5 true Mode.Periodic Clock.Khz2 (2 ^ 32 - 1) 0)
        5500000 = none) ∧
    (∀ L, 5 < (5500000 * (Timer.mk (some 100) 5 true Mode.Periodic Clock.Khz2
        (2 ^ 32 - 1) 0).khz + 0) / 1000000 → (some 100 : Option Nat) = some L →
      L < 2 ^ 32 → (5500000 * (Timer.mk (some 100) 5 true Mode.Periodic Clock.Khz2
        (2 ^ 32 - 1) 0).khz + 0) / 1000000 - 5 ≤ L →
      ∃ t', Timer.update_regs
          (Timer.mk (some 100) 5 true Mode.Periodic Clock.Khz2 (2 ^ 32 - 1) 0)
          5500000 = some t' ∧
        t'.val = L - ((5500000 * (Timer.mk (some 100) 5 true Mode.Periodic Clock.Khz2
          (2 ^ 32 - 1) 0).khz + 0) / 1000000 - 5)) :=
  C4_periodic_update
    (Timer.mk (some 100) 5 true Mode.Periodic Clock.Khz2 (2 ^ 32 - 1) 0)
    5500000 rfl rfl (by decide) (by decide)

theorem findSome?_range_getD {α β : Type} (es : List α) (d : α) (f : α → Option β) :
    (List.range es.length).findSome? (fun i => f (es.getD i d)) = es.findSome? f := by
  induction es with
  | nil => rfl
  | cons a l ih =>
    rw [List.length_cons, List.range_succ_eq_map, List.findSome?_cons, List.findSome?_cons]
    simp only [List.getD_cons_zero]
    cases hf : f a
    · rw [List.findSome?_map]
      rw [← ih]
      congr 1
    · rfl

theorem and_shiftLeft_ne_zero (irqs s : Nat) :
    (irqs &&& 1 <<< s != 0) = irqs.testBit s := by
  rw [Nat.shiftLeft_eq, one_mul, Nat.and_two_pow]
  cases h : irqs.testBit s
  · simp
  · have h2 : (2 : Nat) ^ s ≠ 0 := by positivity
    simp [h2]

/-- C1: for every controller state with its 16-slot vector table,
`isr_address` (the value read at offset 0x30) equals the
specification-side resolution `isrAddressSpec`: the default vector
address whenever an FIQ is pending or no IRQ is pending, and otherwise
the ISR address of the lowest-index enabled slot whose configured source
bit is among the enabled, active, non-FIQ-selected lines, with the
default vector address as fallback. -/
theorem C1_isr_address_resolution (v : Vic) (h : v.vector_entries.length = 16) :
    v.isr_address = isrAddressSpec v := by
  unfold Vic.isr_address isrAddressSpec
  cases hb : v.fiq || !v.irq
  · simp only [hb]
    rw [← h, findSome?_range_getD]
    have hset : (v.status ||| v.software_status) &&& v.enabled &&& not32 v.select
        = v.enabled_active_interrupts &&& not32 v.select := by
      unfold Vic.enabled_active_interrupts Vic.rawstatus
      rw [Nat.lor_comm]
    rw [hset]
    have he : (fun entry => if entry.enabled &&
          (v.enabled_active_interrupts &&& not32 v.select &&& 1 <<< entry.source != 0)
        then some entry.isr_addr else none)
        = slotHit (v.enabled_active_interrupts &&& not32 v.select) := by
      funext e
      unfold slotHit
      rw [and_shiftLeft_ne_zero]
    rw [he]
  · simp [hb]

/-- Witness for C1 at a concrete input: a controller with line 0 enabled
and asserted and slot 0 mapped to it resolves the vector address both
ways. -/
theorem C1_witness :
    Vic.isr_address (Vic.w32 (Vic.w32 (Vic.w32 (Vic.assert_interrupt Vic.new 0)
        0x10 1).2 0x100 0x1000).2 0x200 0x20).2
      = isrAddressSpec (Vic.w32 (Vic.w32 (Vic.w32 (Vic.assert_interrupt Vic.new 0)
        0x10 1).2 0x100 0x1000).2 0x200 0x20).2 :=
  C1_isr_address_resolution _ (by decide)

theorem vectCntlBits (m : Nat) :
    (if (m &&& 32 != 0) = true then 32 else 0) + (m &&& 31) = m &&& 63 := by
  have e63 : m &&& 63 = m % 64 := by
    rw [show (63 : Nat) = 2 ^ 6 - 1 from rfl, Nat.and_pow_two_sub_one_eq_mod]
  have e31 : m &&& 31 = m % 64 % 32 := by
    rw [show (31 : Nat) = 2 ^ 5 - 1 from rfl, Nat.and_pow_two_sub_one_eq_mod]
    omega
  have e32 : m &&& 32 = m % 64 &&& 32 := by
    rw [show (32 : Nat) = 2 ^ 5 from rfl, Nat.and_two_pow, Nat.and_two_pow]
    rw [show (64 : Nat) = 2 ^ 6 from rfl, Nat.testBit_mod_two_pow]
    norm_num
  rw [e63, e31, e32]
  have hlt : m % 64 < 64 := Nat.mod_lt _ (by norm_num)
  exact (by decide :
    ∀ k, k < 64 → (if (k &&& 32 != 0) = true then 32 else 0) + k % 32 = k) _ hlt

/-- C9: writing v to VectCntl[i] (offset 0x200 + 4·i) succeeds and stores
enabled = (v AND 0x20 ≠ 0) and source = v AND 0x1F in slot i, and a
subsequent read of the same offset returns v AND 0x3F. -/
theorem C9_vectcntl_write_readback (v : Vic) (i va : Nat) (hi : i < 16)
    (hlen : v.vector_entries.length = 16) :
    ∃ v', v.w32 (0x200 + 4 * i) va = (.ok (), v') ∧
      ((v'.vector_entries.getD i VectorEntry.default).enabled = true ↔
        va &&& 0x20 ≠ 0) ∧
      (v'.vector_entries.getD i VectorEntry.default).source = va &&& 0x1f ∧
      (v'.r32 (0x200 + 4 * i)).1 = .ok (va &&& 0x3f) := by
  have hidx : (0x200 + 4 * i - 0x200) / 4 = i := by omega
  unfold Vic.w32
  repeat rw [if_neg (by omega)]
  rw [if_pos (show 0x200 ≤ 0x200 + 4 * i ∧ 0x200 + 4 * i ≤ 0x23c by omega), hidx]
  refine ⟨_, rfl, ?_, ?_, ?_⟩
  · rw [List.getD_eq_getElem?_getD, List.getElem?_set, if_pos rfl,
      if_pos (show i < v.vector_entries.length by omega), Option.getD_some]
    simp
  · rw [List.getD_eq_getElem?_getD, List.getElem?_set, if_pos rfl,
      if_pos (show i < v.vector_entries.length by omega), Option.getD_some]
  · unfold Vic.r32
    repeat rw [if_neg (by omega)]
    rw [if_pos (show 0x200 ≤ 0x200 + 4 * i ∧ 0x200 + 4 * i ≤ 0x23c by omega), hidx]
    dsimp only
    rw [List.getD_eq_getElem?_getD, List.getElem?_set, if_pos rfl,
      if_pos (show i < v.vector_entries.length by omega), Option.getD_some]
    show Except.ok ((if (va &&& 32 != 0) = true then 32 else 0) + (va &&& 31)) = _
    rw [vectCntlBits]

/-- Witness for C9 at a concrete input: writing 0xABC to VectCntl[3] of a
fresh controller stores enabled and source bits that read back as
0xABC AND 0x3F. -/
theorem C9_witness :
    ∃ v', Vic.new.w32 (0x200 + 4 * 3) 0xABC = (.ok (), v') ∧
      ((v'.vector_entries.getD 3 VectorEntry.default).enabled = true ↔
        0xABC &&& 0x20 ≠ 0) ∧
      (v'.vector_entries.getD 3 VectorEntry.default).source = 0xABC &&& 0x1f ∧
      (v'.r32 (0x200 + 4 * 3)).1 = .ok (0xABC &&& 0x3f) :=
  C9_vectcntl_write_readback Vic.new 3 0xABC (by decide) (by decide)

end TS7200
